import Mathlib

/-!
Verification development for the flatworm auto-save engine
(`src/core/git_manager.py`).

The repository state is shallowly embedded: a git repository is a finite
collection of local branches and remote branches (each a name paired with
its commit history, newest commit first), a checked-out branch name, an
index (staging area) and a working tree.  Trees are association lists from
path to file content.  Every git operation invoked by `git_manager` is
translated into a pure function on this state; fallible operations return
`Except GitErr`, except `git pull --rebase`, whose failure leaves its
partial effects behind and which therefore returns the resulting state
paired with the optional error.  The methods `git_manager.__init__`,
`git_manager.ensure_branch_exists` and `git_manager.commit_and_push` are
then translated line by line from the source.
-/

set_option autoImplicit false

namespace Flatworm

/-- A tree maps paths to file contents (association list, first hit wins). -/
abbrev Tree := List (String × String)

/-- Lookup of a path in a tree. -/
def Tree.find (t : Tree) (p : String) : Option String :=
  (t.find? (fun kv => kv.1 == p)).map Prod.snd

/-- Update or insert a path in a tree. -/
def Tree.set (t : Tree) (p v : String) : Tree :=
  (p, v) :: t.filter (fun kv => !(kv.1 == p))

/-- Containment of one tree's entries in another, by lookup. -/
def Tree.subT (a b : Tree) : Bool :=
  a.all (fun kv => Tree.find b kv.1 == some kv.2)

/-- Extensional equality of trees as finite maps. -/
def Tree.eqv (a b : Tree) : Bool :=
  Tree.subT a b && Tree.subT b a

/-- A commit: the snapshot tree it records and its message.  Histories are
lists of commits, newest first; the parent of a commit is the next list
element. -/
structure Commit where
  tree : Tree
  msg : String
deriving DecidableEq, Repr

/-- The embedded repository state: local branches, remote branches
(the remote refs known to `origin`), the checked-out branch name, the
index and the working tree.  `rebasing` records a rebase that stopped on
a conflict and is still in progress (unmerged files present); an
ordinary repository has it `false`. -/
structure RepoState where
  branches : List (String × List Commit)
  remote : List (String × List Commit)
  head : String
  index : Tree
  worktree : Tree
  rebasing : Bool := false
deriving DecidableEq, Repr

/-- Error raised by a git operation (models a `GitCommandError`, whose
message the source code inspects). -/
structure GitErr where
  msg : String
deriving DecidableEq, Repr

/-- Lookup a branch history by name. -/
def lookupBranch (bs : List (String × List Commit)) (b : String) :
    Option (List Commit) :=
  (bs.find? (fun e => e.1 == b)).map Prod.snd

/-- Update or create a branch entry. -/
def setBranch (bs : List (String × List Commit)) (b : String)
    (h : List Commit) : List (String × List Commit) :=
  (b, h) :: bs.filter (fun e => !(e.1 == b))

/-- Names of the branches known on the remote
(`[ref.remote_head for ref in origin.refs]` in the source). -/
def remoteNames (s : RepoState) : List String :=
  s.remote.map Prod.fst

/-- History of the checked-out branch. -/
def headHistory (s : RepoState) : List Commit :=
  (lookupBranch s.branches s.head).getD []

/-- Tree of the newest commit of a history (empty tree for an empty
history). -/
def tipTree (h : List Commit) : Tree :=
  (h.head?.map Commit.tree).getD []

/-- Tree of the commit the checked-out branch points at. -/
def headTree (s : RepoState) : Tree :=
  tipTree (headHistory s)

/-- Dirtiness test, translating `repo.is_dirty(untracked_files=True)`:
true when the index differs from HEAD, or the working tree differs from
the index (which covers both tracked modifications and untracked files). -/
def is_dirty (s : RepoState) : Bool :=
  !(Tree.eqv s.index (headTree s)) || !(Tree.eqv s.worktree s.index)

/-- Glob matching on character lists, with explicit fuel so that the
recursion is structural: a star matches any sequence of characters (git
pathspec semantics, where the wildcard also crosses directory
separators).  Every recursive call shrinks `p.length + s.length`, so fuel
`p.length + s.length + 1` is always enough. -/
def globMatchL : Nat → List Char → List Char → Bool
  | 0, _, _ => false
  | _ + 1, [], [] => true
  | _ + 1, [], _ :: _ => false
  | fuel + 1, '*' :: ps, [] => globMatchL fuel ps []
  | fuel + 1, '*' :: ps, c :: cs =>
      globMatchL fuel ps (c :: cs) || globMatchL fuel ('*' :: ps) cs
  | _ + 1, _ :: _, [] => false
  | fuel + 1, p :: ps, c :: cs => (p == c) && globMatchL fuel ps cs

/-- Glob matching on strings, used for git pathspecs like `*.log`. -/
def globMatch (pat path : String) : Bool :=
  globMatchL (pat.toList.length + path.toList.length + 1)
    pat.toList path.toList

/-- Truthiness of `pattern.strip()` in Python: the stripped pattern is
non-empty exactly when some character of the pattern is not
whitespace. -/
def stripNonEmpty (s : String) : Bool :=
  s.toList.any (fun c => !c.isWhitespace)

/-- Substring test on character lists. -/
def containsSubstrL (nd : List Char) : List Char → Bool
  | [] => nd.isEmpty
  | c :: t => nd.isPrefixOf (c :: t) || containsSubstrL nd t

/-- Substring test on strings, translating Python's `needle in haystack`. -/
def containsSubstr (hay needle : String) : Bool :=
  containsSubstrL needle.toList hay.toList

/-- Translation of `git checkout b`: fails when the branch does not exist;
otherwise switches HEAD, sets the index to the branch tip's tree and the
working tree to that tree plus the untracked files it does not shadow
(git preserves untracked files across a checkout). -/
def checkout (b : String) (s : RepoState) : Except GitErr RepoState :=
  match lookupBranch s.branches b with
  | none =>
      Except.error ⟨"error: pathspec " ++ b ++
        " did not match any file(s) known to git"⟩
  | some h =>
      let t := tipTree h
      Except.ok { s with
        head := b,
        index := t,
        worktree := t ++ s.worktree.filter (fun kv =>
          (Tree.find s.index kv.1).isNone && (Tree.find t kv.1).isNone) }

/-- Translation of `git checkout -b b`: fails when the branch already
exists; otherwise creates it at the current branch tip and switches HEAD,
leaving index and working tree untouched. -/
def checkout_b (b : String) (s : RepoState) : Except GitErr RepoState :=
  match lookupBranch s.branches b with
  | some _ => Except.error ⟨"fatal: a branch named " ++ b ++ " already exists"⟩
  | none =>
      Except.ok { s with
        branches := setBranch s.branches b (headHistory s),
        head := b }

/-- Translation of `repo.git.add(A=True)`: stage everything, so the index
becomes the working tree (this also stages deletions and untracked
files). -/
def add_A (s : RepoState) : RepoState :=
  { s with index := s.worktree }

/-- Translation of `repo.index.commit(msg)`: records the index as a new
commit on the checked-out branch and returns it. -/
def index_commit (msg : String) (s : RepoState) : Commit × RepoState :=
  let c : Commit := ⟨s.index, msg⟩
  (c, { s with branches := setBranch s.branches s.head (c :: headHistory s) })

/-- Translation of `git push --set-upstream origin b` (and of
`origin.push(b)` in `ensure_branch_exists`): creates the remote branch if
absent; fast-forwards it when the remote history is an ancestor of the
local one; rejects the push otherwise. -/
def pushBranch (b : String) (s : RepoState) : Except GitErr RepoState :=
  match lookupBranch s.remote b with
  | none =>
      Except.ok { s with
        remote := setBranch s.remote b ((lookupBranch s.branches b).getD []) }
  | some rh =>
      if rh <:+ (lookupBranch s.branches b).getD [] then
        Except.ok { s with
          remote := setBranch s.remote b ((lookupBranch s.branches b).getD []) }
      else
        Except.error ⟨"error: failed to push some refs (non-fast-forward)"⟩

/-- Translation of `git pull origin b --rebase`, issued while `b` is
checked out.  A failed git command still leaves its effects behind, so
the resulting state is returned together with the optional error: a
missing remote branch fails without touching the repository; a local
branch up to date with (or ahead of) the remote is a no-op; a remote
strictly ahead fast-forwards the local branch, index and working tree;
and diverged histories make the rebase stop on a conflict, leaving the
repository mid-rebase with unmerged files (`rebasing := true`) — a
diverged rebase that would happen to replay cleanly is not modelled, and
no theorem below depends on the diverged case. -/
def pull_rebase (b : String) (s : RepoState) : RepoState × Option GitErr :=
  if s.head = b then
    match lookupBranch s.remote b with
    | none => (s, some ⟨"fatal: couldn't find remote ref " ++ b⟩)
    | some rh =>
        if rh <:+ (lookupBranch s.branches b).getD [] then (s, none)
        else if (lookupBranch s.branches b).getD [] <:+ rh then
          ({ s with
            branches := setBranch s.branches b rh,
            index := tipTree rh,
            worktree := tipTree rh ++ s.worktree.filter (fun kv =>
              (Tree.find s.index kv.1).isNone &&
              (Tree.find (tipTree rh) kv.1).isNone) }, none)
        else
          ({ s with rebasing := true },
           some ⟨"CONFLICT (content): could not apply; fix conflicts and then run git rebase --continue"⟩)
  else (s, some ⟨"fatal: not on branch " ++ b⟩)

/-- One path of a cherry-pick three-way application: given the content at
the picked commit's parent (`b`), at the picked commit (`n`) and at the
target tip (`t`), yields the resulting content, or `none` on a conflict:
unchanged paths keep the target content; a changed path applies cleanly
when the target agrees with the parent, is already applied when the
target agrees with the picked commit, and conflicts otherwise. -/
def applyPath (b n t : Option String) : Option (Option String) :=
  if b = n then some t
  else if t = b then some n
  else if t = n then some n
  else none

/-- Apply the diff from `base` to `nw` onto `tgt`, path by path;
`none` when some path conflicts. -/
def applyDiff (base nw tgt : Tree) : Option Tree :=
  let ks := ((base.map Prod.fst) ++ (nw.map Prod.fst) ++ (tgt.map Prod.fst)).dedup
  ks.foldr (fun p acc =>
    match acc with
    | none => none
    | some t =>
        match applyPath (Tree.find base p) (Tree.find nw p) (Tree.find tgt p) with
        | none => none
        | some none => some t
        | some (some v) => some ((p, v) :: t)) (some [])

/-- Translation of `git cherry-pick <sha>` for commit `c` whose parent
tree is `base`, applied to the checked-out branch.  While a rebase is in
progress (unmerged files present) the pick refuses to start, with the
message git prints in that situation.  Otherwise a conflicting
application fails with git's conflict message; an application whose
result equals the target tip would produce an empty commit and fails with
the message the source code recognizes; otherwise a new commit with the
replayed tree and the original message is added to the checked-out
branch, and index and working tree are updated to it. -/
def cherry_pick (base : Tree) (c : Commit) (s : RepoState) :
    Except GitErr RepoState :=
  if s.rebasing then
    Except.error ⟨"error: Cherry-picking is not possible because you have unmerged files."⟩
  else
  match applyDiff base c.tree (headTree s) with
  | none => Except.error ⟨"error: could not apply " ++ c.msg⟩
  | some res =>
      if Tree.eqv res (headTree s) then
        Except.error ⟨"The previous cherry-pick is now empty, possibly due to conflict resolution."⟩
      else
        Except.ok { s with
          branches := setBranch s.branches s.head (⟨res, c.msg⟩ :: headHistory s),
          index := res,
          worktree := res ++ s.worktree.filter (fun kv =>
            (Tree.find s.index kv.1).isNone && (Tree.find res kv.1).isNone) }

/-- Translation of `git cherry-pick --abort` (line 127): when a
cherry-pick is in progress — the model's conflicting cherry-pick fails
atomically, so the state to restore is the current one — the abort
succeeds; when none is, in particular when the failed pick refused to
start because the repository was mid-rebase, git fails with "no
cherry-pick or revert in progress". -/
def cherry_pick_abort (s : RepoState) : Except GitErr RepoState :=
  if s.rebasing then
    Except.error ⟨"error: no cherry-pick or revert in progress"⟩
  else Except.ok s

/-- Translation of `repo.git.ls_files(pattern)`: the tracked (index) paths
matching the pathspec. -/
def ls_files (pat : String) (s : RepoState) : List String :=
  (s.index.map Prod.fst).filter (fun p => globMatch pat p)

/-- Translation of `git rm -r --cached pattern`: fails when no tracked
path matches; otherwise removes the matching paths from the index while
leaving the working tree (the files on disk) untouched. -/
def rm_r_cached (pat : String) (s : RepoState) : Except GitErr RepoState :=
  if ls_files pat s = [] then
    Except.error ⟨"fatal: pathspec " ++ pat ++ " did not match any files"⟩
  else
    Except.ok { s with index := s.index.filter (fun kv => !(globMatch pat kv.1)) }

/-- Translation of `git reset HEAD~1` (a mixed reset): moves the
checked-out branch back one commit and resets the index to that commit's
tree, leaving the working tree untouched; fails when HEAD has no
parent. -/
def reset_mixed_head1 (s : RepoState) : Except GitErr RepoState :=
  match headHistory s with
  | [] => Except.error ⟨"fatal: ambiguous argument HEAD~1: unknown revision"⟩
  | [_] => Except.error ⟨"fatal: ambiguous argument HEAD~1: unknown revision"⟩
  | _ :: rest =>
      Except.ok { s with
        branches := setBranch s.branches s.head rest,
        index := tipTree rest }

/-- Translation of `git_manager.ensure_branch_exists` (lines 22-65 of
`src/core/git_manager.py`): when the checked-out branch is not the
auto-save branch, create it with `checkout -b` if it is locally absent or
plainly check it out otherwise; then push it to the remote when the
remote lacks it. -/
def ensure_branch_exists (branch : String) (s : RepoState) :
    Except GitErr RepoState :=
  match (if s.head = branch then Except.ok s
    else if (lookupBranch s.branches branch).isNone then checkout_b branch s
    else checkout branch s) with
  | Except.error e => Except.error e
  | Except.ok s1 =>
      if branch ∈ remoteNames s1 then Except.ok s1
      else pushBranch branch s1

/-- Translation of the repository-state effect of `git_manager.__init__`
(lines 7-20): after storing the configuration it calls
`ensure_branch_exists`. -/
def git_manager_init (branch : String) (s : RepoState) :
    Except GitErr RepoState :=
  ensure_branch_exists branch s

/-- An external edit by the developer: write content to a path of the
working tree (used to build concrete scenarios). -/
def touchFile (s : RepoState) (p v : String) : RepoState :=
  { s with worktree := Tree.set s.worktree p v }


/-- Outcome of one `commit_and_push` cycle, formalizing the log lines the
source emits: `noop` when no dirty changes are found, `success pushOk`
when the cycle runs to its final log line (`pushOk` is false when the
push to the remote raised and was caught at line 155), `aborted` for the
cherry-pick-conflict early return at line 134, and `failed` for any other
exception, which is caught by the outer handler at line 168. -/
inductive Outcome where
  | noop
  | success (pushOk : Bool)
  | aborted
  | failed (msg : String)
deriving DecidableEq, Repr

/-- The fixed message of the temporary snapshot commit (line 102). -/
def tempMsg : String := "Temporary commit for auto-save."

/-- The marker string the source looks for in a cherry-pick error message
(line 120). -/
def emptyMark : String := "The previous cherry-pick is now empty"

/-- Translation of the exclusion-filter loop (lines 136-144): for each
pattern with non-whitespace content, if some tracked file matches it, run
`git rm -r --cached pattern`; an exception from `rm` stops the loop and
propagates (second component `some e`), anything else continues. -/
def applyExclusions : List String → RepoState → RepoState × Option GitErr
  | [], s => (s, none)
  | pat :: rest, s =>
      if stripNonEmpty pat then
        if ls_files pat s = [] then applyExclusions rest s
        else
          match rm_r_cached pat s with
          | Except.error e => (s, some e)
          | Except.ok s1 => applyExclusions rest s1
      else applyExclusions rest s

/-- Translation of the rollback steps (lines 128-131 and 160-164): check
out the original branch, then `git reset HEAD~1`.  An exception from
either step propagates to the outer handler (outcome `failed`); otherwise
the given outcome is reported. -/
def rollbackSteps (current_branch : String) (out : Outcome) (s : RepoState) :
    RepoState × Outcome :=
  match checkout current_branch s with
  | Except.error e => (s, Outcome.failed e.msg)
  | Except.ok s1 =>
      match reset_mixed_head1 s1 with
      | Except.error e => (s1, Outcome.failed e.msg)
      | Except.ok s2 => (s2, out)

/-- Translation of lines 136-166 of `commit_and_push`: the exclusion
filter, the final auto-save commit, the push (whose failure is caught and
only logged, lines 152-158), and the rollback back onto the original
branch. -/
def finishCycle (branch current_branch now : String) (pats : List String)
    (s : RepoState) : RepoState × Outcome :=
  match applyExclusions pats s with
  | (s1, some e) => (s1, Outcome.failed e.msg)
  | (s1, none) =>
      let s2 := (index_commit ("Auto-commit on " ++ now ++ ".") s1).2
      match pushBranch branch s2 with
      | Except.error _ => rollbackSteps current_branch (Outcome.success false) s2
      | Except.ok s3 => rollbackSteps current_branch (Outcome.success true) s3

/-- Translation of `git_manager.commit_and_push` (lines 67-169 of
`src/core/git_manager.py`).  `branch` and `exclude_patterns` are the
configuration stored by `__init__`; `now` stands for
`time.strftime(...)` in the final commit message.  Every `try/except` of
the source is mirrored by a `match` on the fallible operation: the pull
failure is swallowed (lines 108-113) and the cycle continues with
whatever state the pull left — possibly mid-rebase; a cherry-pick error
is dispatched on its message (lines 116-134), where the `--skip` of an
empty pick leaves the state as the model's atomic pick failure already
left it, and the `--abort` of a conflicting pick may itself raise; the
push failure is swallowed (lines 152-158); and every other exception
reaches the outer handler (lines 168-169), which only logs — outcome
`failed`, no rollback. -/
def commit_and_push (branch : String) (exclude_patterns : List String)
    (now : String) (s0 : RepoState) : RepoState × Outcome :=
  let current_branch := s0.head
  if is_dirty s0 then
    let s1 := add_A s0
    let base := headTree s1
    let tc := index_commit tempMsg s1
    match checkout branch tc.2 with
    | Except.error e => (tc.2, Outcome.failed e.msg)
    | Except.ok s3 =>
        let s4 := (pull_rebase branch s3).1
        match cherry_pick base tc.1 s4 with
        | Except.ok s5 => finishCycle branch current_branch now exclude_patterns s5
        | Except.error e =>
            if containsSubstr e.msg emptyMark then
              finishCycle branch current_branch now exclude_patterns s4
            else
              match cherry_pick_abort s4 with
              | Except.error e2 => (s4, Outcome.failed e2.msg)
              | Except.ok s5 =>
                  rollbackSteps current_branch Outcome.aborted s5
  else (s0, Outcome.noop)

/-- Abbreviation for the state reached by a dirty cycle just after the
snapshot commit and the checkout of the auto-save branch (given the
original head history `h0` and the auto-save history `hb`); used only to
phrase the trace lemmas below. -/
def postSnapState (branch : String) (s0 : RepoState) (h0 hb : List Commit) :
    RepoState :=
  { s0 with
    branches := setBranch s0.branches s0.head
      (Commit.mk s0.worktree tempMsg :: h0),
    head := branch,
    index := tipTree hb,
    worktree := tipTree hb }

/-! Concrete repository states used as scenarios, witnesses and
counterexamples. -/

/-- The base tree of the scenarios: one committed file. -/
def t0 : Tree := [("README.md", "r0")]

/-- The initial commit of the scenarios. -/
def c0 : Commit := ⟨t0, "initial"⟩

/-- Scenario of the spec's §8 scenario test, as the code receives it: on
branch `work`, no `autosave/work` branch locally or remotely, one dirty
(untracked) file `x.txt` with content `v1`. -/
def sNoBranch : RepoState :=
  { branches := [("work", [c0])], remote := [("work", [c0])],
    head := "work", index := t0,
    worktree := [("x.txt", "v1"), ("README.md", "r0")] }

/-- The same repository before any edit (clean tree on `work`). -/
def sInit : RepoState :=
  { branches := [("work", [c0])], remote := [("work", [c0])],
    head := "work", index := t0, worktree := t0 }

/-- The repository produced by engine construction on `sInit` with
auto-save branch `autosave/work` (checked against `git_manager_init` by
the theorems below). -/
def sReconciled : RepoState :=
  { branches := [("autosave/work", [c0]), ("work", [c0])],
    remote := [("autosave/work", [c0]), ("work", [c0])],
    head := "autosave/work", index := t0, worktree := t0 }

/-- Full §8 scenario run, with reconciliation where the code actually
performs it: engine construction (which creates `autosave/work` locally
and remotely), a checkout of `work` by the developer, the edit
`x.txt = v1`, then one cycle of `commit_and_push`. -/
def c2_run : RepoState × Outcome :=
  match git_manager_init "autosave/work" sInit with
  | Except.error _ => (sInit, Outcome.failed "init")
  | Except.ok s1 =>
      match checkout "work" s1 with
      | Except.error _ => (s1, Outcome.failed "checkout work")
      | Except.ok s2 =>
          commit_and_push "autosave/work" [] "2026-10-12 00:00:00"
            (touchFile s2 "x.txt" "v1")

/-- Exclusion scenario: dirty tree containing `a.log` and `b.txt`, with
the auto-save branch reconciled. -/
def sExcl : RepoState :=
  { branches := [("work", [c0]), ("autosave", [c0])],
    remote := [("autosave", [c0]), ("work", [c0])],
    head := "work", index := t0,
    worktree := [("a.log", "L"), ("b.txt", "vb"), ("README.md", "r0")] }

/-- A commit on the auto-save branch that conflicts with the snapshot
(`README.md` was changed to a third content). -/
def cConf : Commit := ⟨[("README.md", "r2")], "auto earlier"⟩

/-- Conflict scenario: the developer edited `README.md` to `r1`, the
auto-save branch tip has it at `r2`, both from base `r0`. -/
def sConf : RepoState :=
  { branches := [("work", [c0]), ("autosave", [cConf, c0])],
    remote := [("autosave", [cConf, c0]), ("work", [c0])],
    head := "work", index := t0,
    worktree := [("README.md", "r1")] }

/-- A commit on the auto-save branch with the same change as the
snapshot. -/
def cSame : Commit := ⟨[("README.md", "r1")], "auto earlier"⟩

/-- Empty-diff scenario: the auto-save branch already contains the
developer's edit, so the cherry-pick would produce an empty commit. -/
def sEmpty : RepoState :=
  { branches := [("work", [c0]), ("autosave", [cSame, c0])],
    remote := [("autosave", [cSame, c0]), ("work", [c0])],
    head := "work", index := t0,
    worktree := [("README.md", "r1")] }

/-- A clean repository (no uncommitted or untracked changes at all). -/
def sClean : RepoState :=
  { branches := [("work", [c0]), ("autosave", [c0])],
    remote := [("autosave", [c0]), ("work", [c0])],
    head := "work", index := t0, worktree := t0 }

/-- A remote-only commit on the auto-save branch that diverges from the
local one. -/
def cRemote : Commit := ⟨[("README.md", "r4")], "remote edit"⟩

/-- Diverged scenario: the local auto-save branch has `cConf` while its
remote has `cRemote`, so a `pull --rebase` of the auto-save branch stops
on a conflict and leaves the repository mid-rebase. -/
def sDiverged : RepoState :=
  { branches := [("work", [c0]), ("autosave", [cConf, c0])],
    remote := [("autosave", [cRemote, c0]), ("work", [c0])],
    head := "work", index := t0,
    worktree := [("README.md", "r1")] }

/-- Staging scenario: `README.md` was modified to `r1` and the change
staged (`index` differs from HEAD, working tree equals the index). -/
def sStaged : RepoState :=
  { branches := [("work", [c0]), ("autosave", [c0])],
    remote := [("autosave", [c0]), ("work", [c0])],
    head := "work", index := [("README.md", "r1")],
    worktree := [("README.md", "r1")] }

/-! Basic lemmas about the association-list maps used for trees and
branch tables. -/

/-- Looking up the branch just written by `setBranch` yields the new
history. -/
lemma lookup_setBranch_same (bs : List (String × List Commit)) (b : String)
    (h : List Commit) : lookupBranch (setBranch bs b h) b = some h := by
  simp [lookupBranch, setBranch]

/-- A `find?` by key is unaffected by filtering out entries with a
different key. -/
lemma find?_filter_ne {α : Type} (l : List (String × α)) (b c : String)
    (hne : c ≠ b) :
    (l.filter (fun e => !(e.1 == b))).find? (fun e => e.1 == c) =
      l.find? (fun e => e.1 == c) := by
  have hbc : (b == c) = false := by simpa using Ne.symm hne
  induction l with
  | nil => rfl
  | cons e tl ih =>
      by_cases hb : e.1 = b
      · simp [List.filter_cons, hb, List.find?_cons, hbc, ih]
      · by_cases hc : e.1 = c
        · simp [List.filter_cons, hb, List.find?_cons, hc, hne]
        · simp [List.filter_cons, hb, List.find?_cons, hc, ih]

/-- Looking up a branch other than the one written by `setBranch` is
unchanged. -/
lemma lookup_setBranch_other (bs : List (String × List Commit))
    (b c : String) (h : List Commit) (hne : c ≠ b) :
    lookupBranch (setBranch bs b h) c = lookupBranch bs c := by
  have hbc : (b == c) = false := by
    simp
    exact fun hcb => hne hcb.symm
  simp [lookupBranch, setBranch, List.find?_cons, hbc, find?_filter_ne bs b c hne]

/-- Every entry of a tree is found by `Tree.find` at its own key. -/
lemma Tree.find_isSome_of_mem (t : Tree) (kv : String × String)
    (h : kv ∈ t) : (Tree.find t kv.1).isSome = true := by
  induction t with
  | nil => cases h
  | cons e tl ih =>
      rcases List.mem_cons.mp h with he | htl
      · subst he; simp [Tree.find, List.find?_cons]
      · by_cases hk : e.1 = kv.1
        · simp [Tree.find, List.find?_cons, hk]
        · have hk' : (e.1 == kv.1) = false := by simp [hk]
          simpa [Tree.find, List.find?_cons, hk'] using ih htl

/-- The untracked-file filter used by `checkout` and `pull_rebase` keeps
nothing when every working-tree path is either tracked or shadowed by the
target tree. -/
lemma filter_untracked_nil (w i t : Tree)
    (h : ∀ kv ∈ w, (Tree.find i kv.1).isSome = true ∨
      (Tree.find t kv.1).isSome = true) :
    w.filter (fun kv =>
      (Tree.find i kv.1).isNone && (Tree.find t kv.1).isNone) = [] := by
  rw [List.filter_eq_nil_iff]
  intro kv hkv
  rcases h kv hkv with hs | hs
  · cases ho : Tree.find i kv.1 with
    | none => simp [ho] at hs
    | some v => simp [ho]
  · cases ho : Tree.find t kv.1 with
    | none => simp [ho] at hs
    | some v => simp [ho]

/-- Unfolding `Tree.find` over a cons cell. -/
lemma Tree.find_cons (e : String × String) (tl : Tree) (q : String) :
    Tree.find (e :: tl) q = if e.1 = q then some e.2 else Tree.find tl q := by
  by_cases h : e.1 = q
  · simp [Tree.find, List.find?_cons, h]
  · simp [Tree.find, List.find?_cons, h]

/-- Finding in a tree filtered by a key predicate. -/
lemma Tree.find_filterKey (t : Tree) (f : String → Bool) (q : String) :
    Tree.find (t.filter (fun kv => f kv.1)) q =
      if f q then Tree.find t q else none := by
  induction t with
  | nil => simp [Tree.find]
  | cons e tl ih =>
      by_cases hq : e.1 = q
      · subst hq
        by_cases hf : f e.1
        · simp [List.filter_cons, hf, Tree.find_cons]
        · simp [List.filter_cons, hf, Tree.find_cons, ih]
      · by_cases hf : f e.1
        · simp [List.filter_cons, hf, hq, Tree.find_cons, ih]
        · simp [List.filter_cons, hf, hq, Tree.find_cons, ih]

/-! Characterizations of single git operations, used to trace a cycle. -/

/-- Checking out an existing branch from a state whose working tree
equals its index (no untracked files, nothing unstaged) produces the
branch tip cleanly. -/
lemma checkout_ok_clean (b : String) (s : RepoState) (h : List Commit)
    (hb : lookupBranch s.branches b = some h) (hclean : s.worktree = s.index) :
    checkout b s = Except.ok
      { s with head := b, index := tipTree h, worktree := tipTree h } := by
  have hnil : s.worktree.filter (fun kv =>
      (Tree.find s.index kv.1).isNone && (Tree.find (tipTree h) kv.1).isNone) = [] := by
    apply filter_untracked_nil
    intro kv hkv
    exact Or.inl (Tree.find_isSome_of_mem s.index kv (hclean ▸ hkv))
  simp [checkout, hb, hnil]

/-- A successful checkout moves HEAD to the requested branch and touches
neither the branch table nor the remote. -/
lemma checkout_ok_facts (b : String) (s s1 : RepoState)
    (h : checkout b s = Except.ok s1) :
    s1.head = b ∧ s1.branches = s.branches ∧ s1.remote = s.remote := by
  unfold checkout at h
  cases hb : lookupBranch s.branches b with
  | none => rw [hb] at h; cases h
  | some hh =>
      rw [hb] at h
      cases h
      exact ⟨rfl, rfl, rfl⟩

/-- A successful `checkout -b` creates the branch at the current tip,
moves HEAD to it and touches nothing else. -/
lemma checkout_b_ok_facts (b : String) (s s1 : RepoState)
    (h : checkout_b b s = Except.ok s1) :
    s1 = { s with branches := setBranch s.branches b (headHistory s),
                  head := b } := by
  unfold checkout_b at h
  cases hb : lookupBranch s.branches b with
  | none => rw [hb] at h; cases h; rfl
  | some hh => rw [hb] at h; cases h

/-- A successful push replaces the remote entry of the pushed branch with
the local history and changes nothing else. -/
lemma pushBranch_ok_char (b : String) (s s1 : RepoState)
    (h : pushBranch b s = Except.ok s1) :
    s1 = { s with
      remote := setBranch s.remote b ((lookupBranch s.branches b).getD []) } := by
  unfold pushBranch at h
  split at h
  · cases h; rfl
  · split at h
    · cases h; rfl
    · cases h

/-- A pull issued from a clean state whose remote branch, when it
exists, has not diverged from the local one keeps HEAD, the remote and
every other branch, leaves the state clean again, and does not start a
rebase: only the no-op, fast-forward and missing-remote-ref arms are
reachable. -/
lemma pull_nodiv_facts (b : String) (s : RepoState)
    (hclean : s.worktree = s.index)
    (hnd : ∀ rh, lookupBranch s.remote b = some rh →
      rh <:+ (lookupBranch s.branches b).getD [] ∨
      (lookupBranch s.branches b).getD [] <:+ rh) :
    (pull_rebase b s).1.head = s.head ∧
    (pull_rebase b s).1.remote = s.remote ∧
    (∀ c, c ≠ b → lookupBranch (pull_rebase b s).1.branches c =
      lookupBranch s.branches c) ∧
    (pull_rebase b s).1.worktree = (pull_rebase b s).1.index ∧
    (pull_rebase b s).1.rebasing = s.rebasing := by
  have hnil : ∀ t : Tree, s.worktree.filter (fun kv =>
      (Tree.find s.index kv.1).isNone && (Tree.find t kv.1).isNone) = [] := by
    intro t
    apply filter_untracked_nil
    intro kv hkv
    exact Or.inl (Tree.find_isSome_of_mem s.index kv (hclean ▸ hkv))
  unfold pull_rebase
  by_cases hh : s.head = b
  · rw [if_pos hh]
    cases hrm : lookupBranch s.remote b with
    | none => exact ⟨rfl, rfl, fun c _ => rfl, hclean, rfl⟩
    | some rh =>
        dsimp only
        by_cases h1 : rh <:+ (lookupBranch s.branches b).getD []
        · rw [if_pos h1]
          exact ⟨rfl, rfl, fun c _ => rfl, hclean, rfl⟩
        · have h2 : (lookupBranch s.branches b).getD [] <:+ rh :=
            (hnd rh hrm).resolve_left h1
          rw [if_neg h1, if_pos h2]
          refine ⟨rfl, rfl, fun c hc => ?_, by simp [hnil], rfl⟩
          exact lookup_setBranch_other s.branches b c _ hc
  · rw [if_neg hh]
    exact ⟨rfl, rfl, fun c _ => rfl, hclean, rfl⟩

/-- A successful cherry-pick from a clean state keeps HEAD, the remote
and every other branch, and leaves the state clean again. -/
lemma cherry_pick_ok_facts (base : Tree) (c : Commit) (s s1 : RepoState)
    (h : cherry_pick base c s = Except.ok s1) (hclean : s.worktree = s.index) :
    s1.head = s.head ∧ s1.remote = s.remote ∧
    (∀ n, n ≠ s.head → lookupBranch s1.branches n = lookupBranch s.branches n) ∧
    s1.worktree = s1.index := by
  have hnil : ∀ t : Tree, s.worktree.filter (fun kv =>
      (Tree.find s.index kv.1).isNone && (Tree.find t kv.1).isNone) = [] := by
    intro t
    apply filter_untracked_nil
    intro kv hkv
    exact Or.inl (Tree.find_isSome_of_mem s.index kv (hclean ▸ hkv))
  unfold cherry_pick at h
  split at h
  · cases h
  · split at h
    · cases h
    · split at h
      · cases h
      · cases h
        refine ⟨rfl, rfl, fun n hn => ?_, by simp [hnil]⟩
        exact lookup_setBranch_other s.branches s.head n _ hn

/-- The exclusion-filter loop never raises (the `rm` call is guarded by a
non-empty match), touches only the index, and only ever removes an index
entry because some configured pattern matches its path. -/
lemma applyExclusions_spec (pats : List String) (s : RepoState) :
    (applyExclusions pats s).2 = none ∧
    (applyExclusions pats s).1.head = s.head ∧
    (applyExclusions pats s).1.branches = s.branches ∧
    (applyExclusions pats s).1.remote = s.remote ∧
    (applyExclusions pats s).1.worktree = s.worktree ∧
    ∀ q, (Tree.find s.index q).isSome = true →
      ((Tree.find (applyExclusions pats s).1.index q).isSome = true ∨
        ∃ pat, pat ∈ pats ∧ globMatch pat q = true) := by
  induction pats generalizing s with
  | nil => exact ⟨rfl, rfl, rfl, rfl, rfl, fun q hq => Or.inl hq⟩
  | cons pat rest ih =>
      by_cases h1 : stripNonEmpty pat = false
      · have he : applyExclusions (pat :: rest) s = applyExclusions rest s := by
          simp [applyExclusions, h1]
        rw [he]
        obtain ⟨a, b, c, d, e, f⟩ := ih s
        exact ⟨a, b, c, d, e, fun q hq => (f q hq).imp id
          (fun hx => ⟨hx.choose, List.mem_cons_of_mem _ hx.choose_spec.1,
            hx.choose_spec.2⟩)⟩
      · rw [Bool.not_eq_false] at h1
        by_cases h2 : ls_files pat s = []
        · have he : applyExclusions (pat :: rest) s = applyExclusions rest s := by
            simp [applyExclusions, h1, h2]
          rw [he]
          obtain ⟨a, b, c, d, e, f⟩ := ih s
          exact ⟨a, b, c, d, e, fun q hq => (f q hq).imp id
            (fun hx => ⟨hx.choose, List.mem_cons_of_mem _ hx.choose_spec.1,
              hx.choose_spec.2⟩)⟩
        · have he : applyExclusions (pat :: rest) s = applyExclusions rest
              { s with index := s.index.filter (fun kv => !(globMatch pat kv.1)) } := by
            simp [applyExclusions, h1, h2, rm_r_cached]
          rw [he]
          obtain ⟨a, b, c, d, e, f⟩ := ih
            { s with index := s.index.filter (fun kv => !(globMatch pat kv.1)) }
          refine ⟨a, b, c, d, e, fun q hq => ?_⟩
          by_cases hg : globMatch pat q = true
          · exact Or.inr ⟨pat, List.mem_cons_self _ _, hg⟩
          · rw [Bool.not_eq_true] at hg
            have hq1 : (Tree.find (s.index.filter
                (fun kv => !(globMatch pat kv.1))) q).isSome = true := by
              rw [Tree.find_filterKey s.index (fun p => !(globMatch pat p)) q]
              simp [hg, hq]
            rcases f q hq1 with hl | hr
            · exact Or.inl hl
            · exact Or.inr ⟨hr.choose, List.mem_cons_of_mem _ hr.choose_spec.1,
                hr.choose_spec.2⟩

/-- The rollback steps (checkout of the original branch followed by a
mixed reset of the temporary commit): they restore the original branch
pointer to its pre-cycle history, leave the working tree at the snapshot
content, and reset the index to the pre-cycle tip tree. -/
lemma rollback_spec (cur : String) (out : Outcome) (s : RepoState)
    (tempC : Commit) (h0 : List Commit)
    (hcur : lookupBranch s.branches cur = some (tempC :: h0))
    (h0ne : h0 ≠ [])
    (hwt : ∀ kv ∈ s.worktree, (Tree.find s.index kv.1).isSome = true ∨
      (Tree.find tempC.tree kv.1).isSome = true) :
    rollbackSteps cur out s =
      ({ s with head := cur,
                branches := setBranch s.branches cur h0,
                index := tipTree h0,
                worktree := tempC.tree }, out) := by
  obtain ⟨c1, h0t, rfl⟩ : ∃ c1 h0t, h0 = c1 :: h0t := by
    cases h0 with
    | nil => exact absurd rfl h0ne
    | cons a t => exact ⟨a, t, rfl⟩
  have hnil : s.worktree.filter (fun kv =>
      (Tree.find s.index kv.1).isNone &&
      (Tree.find (tipTree (tempC :: c1 :: h0t)) kv.1).isNone) = [] := by
    apply filter_untracked_nil
    intro kv hkv
    simpa [tipTree] using hwt kv hkv
  have hco : checkout cur s = Except.ok
      { s with head := cur, index := tipTree (tempC :: c1 :: h0t),
               worktree := tipTree (tempC :: c1 :: h0t) } := by
    simp [checkout, hcur, hnil]
  simp only [rollbackSteps, hco]
  simp [reset_mixed_head1, headHistory, hcur, tipTree]

/-- Behaviour of the tail of a dirty cycle (`finishCycle`) started from a
state on the auto-save branch carrying the temporary commit on the
original branch `cur`: the exclusion filter runs, an auto-commit is added
on the auto-save branch, the push either updates the remote or is caught,
and the rollback restores `cur`.  The returned outcome is `success pk`,
with `pk` true exactly when the push was a fast-forward (or created the
remote branch). -/
lemma finish_spec (branch cur now : String) (pats : List String)
    (s : RepoState) (tempC : Commit) (h0 : List Commit)
    (hhead : s.head = branch) (hne : cur ≠ branch)
    (hcur : lookupBranch s.branches cur = some (tempC :: h0))
    (h0ne : h0 ≠ [])
    (hwt : ∀ kv ∈ s.worktree, (Tree.find s.index kv.1).isSome = true)
    (hpat : ∀ pat ∈ pats, ∀ q, globMatch pat q = true →
      (Tree.find tempC.tree q).isSome = true) :
    ∃ pk : Bool,
      (finishCycle branch cur now pats s).2 = Outcome.success pk ∧
      (finishCycle branch cur now pats s).1.head = cur ∧
      lookupBranch (finishCycle branch cur now pats s).1.branches cur = some h0 ∧
      (finishCycle branch cur now pats s).1.worktree = tempC.tree ∧
      (finishCycle branch cur now pats s).1.index = tipTree h0 ∧
      lookupBranch (finishCycle branch cur now pats s).1.branches branch =
        some (Commit.mk (applyExclusions pats s).1.index
          ("Auto-commit on " ++ now ++ ".") ::
          (lookupBranch s.branches branch).getD []) ∧
      (pk = true ↔ ∀ rh, lookupBranch s.remote branch = some rh →
        rh <:+ (Commit.mk (applyExclusions pats s).1.index
          ("Auto-commit on " ++ now ++ ".") ::
          (lookupBranch s.branches branch).getD [])) ∧
      (pk = false → (finishCycle branch cur now pats s).1.remote = s.remote) ∧
      (pk = true →
        lookupBranch (finishCycle branch cur now pats s).1.remote branch =
          some (Commit.mk (applyExclusions pats s).1.index
            ("Auto-commit on " ++ now ++ ".") ::
            (lookupBranch s.branches branch).getD [])) := by
  obtain ⟨hE2, hEh, hEb, hEr, hEw, hEi⟩ := applyExclusions_spec pats s
  have hAE : applyExclusions pats s = ((applyExclusions pats s).1, none) := by
    have h := Prod.mk.eta (p := applyExclusions pats s)
    rw [hE2] at h
    exact h.symm
  have hs2 : (index_commit ("Auto-commit on " ++ now ++ ".")
      (applyExclusions pats s).1).2 =
      { (applyExclusions pats s).1 with
        branches :=
          setBranch s.branches branch
            (Commit.mk (applyExclusions pats s).1.index
              ("Auto-commit on " ++ now ++ ".") ::
              (lookupBranch s.branches branch).getD []) } := by
    simp [index_commit, headHistory, hEb, hEh, hhead]
  simp only [finishCycle]
  rw [hAE]
  dsimp only
  rw [hs2]
  generalize hL : Commit.mk (applyExclusions pats s).1.index
    ("Auto-commit on " ++ now ++ ".") ::
    (lookupBranch s.branches branch).getD [] = L
  have hroll : ∀ (s6 : RepoState) (out : Outcome),
      s6.branches = setBranch s.branches branch L →
      s6.worktree = s.worktree →
      s6.index = (applyExclusions pats s).1.index →
      rollbackSteps cur out s6 =
        ({ s6 with
           head := cur,
           branches := setBranch s6.branches cur h0,
           index := tipTree h0,
           worktree := tempC.tree }, out) := by
    intro s6 out hb6 hw6 hi6
    apply rollback_spec
    · rw [hb6, lookup_setBranch_other s.branches branch cur L hne]
      exact hcur
    · exact h0ne
    · intro kv hkv
      rw [hw6] at hkv
      rcases hEi kv.1 (hwt kv hkv) with hl | hr
      · rw [hi6]; exact Or.inl hl
      · exact Or.inr (hpat hr.choose hr.choose_spec.1 kv.1 hr.choose_spec.2)
  cases hrm : lookupBranch s.remote branch with
  | none =>
      have hpb : pushBranch branch
          { (applyExclusions pats s).1 with
            branches := setBranch s.branches branch L } =
          Except.ok { (applyExclusions pats s).1 with
            branches := setBranch s.branches branch L,
            remote := setBranch s.remote branch L } := by
        simp [pushBranch, hEr, hrm, lookup_setBranch_same]
      rw [hpb]
      dsimp only
      rw [hroll]
      · refine ⟨true, rfl, rfl, ?_, rfl, rfl, ?_, ?_, ?_, ?_⟩
        · exact lookup_setBranch_same _ cur h0
        · rw [lookup_setBranch_other _ cur branch h0 (Ne.symm hne)]
          exact lookup_setBranch_same _ branch L
        · exact ⟨fun _ rh1 hrh1 => (nomatch hrh1), fun _ => rfl⟩
        · intro h; cases h
        · intro _
          exact lookup_setBranch_same _ branch L
      · rfl
      · exact hEw
      · rfl
  | some rh =>
      by_cases hsfx : rh <:+ L
      · have hpb : pushBranch branch
            { (applyExclusions pats s).1 with
              branches := setBranch s.branches branch L } =
            Except.ok { (applyExclusions pats s).1 with
              branches := setBranch s.branches branch L,
              remote := setBranch s.remote branch L } := by
          simp [pushBranch, hEr, hrm, lookup_setBranch_same, hsfx]
        rw [hpb]
        dsimp only
        rw [hroll]
        · refine ⟨true, rfl, rfl, ?_, rfl, rfl, ?_, ?_, ?_, ?_⟩
          · exact lookup_setBranch_same _ cur h0
          · rw [lookup_setBranch_other _ cur branch h0 (Ne.symm hne)]
            exact lookup_setBranch_same _ branch L
          · refine ⟨fun _ rh1 hrh1 => ?_, fun _ => rfl⟩
            cases hrh1
            exact hsfx
          · intro h; cases h
          · intro _
            exact lookup_setBranch_same _ branch L
        · rfl
        · exact hEw
        · rfl
      · have hpb : pushBranch branch
            { (applyExclusions pats s).1 with
              branches := setBranch s.branches branch L } =
            Except.error ⟨"error: failed to push some refs (non-fast-forward)"⟩ := by
          simp [pushBranch, hEr, hrm, lookup_setBranch_same, hsfx]
        rw [hpb]
        dsimp only
        rw [hroll]
        · refine ⟨false, rfl, rfl, ?_, rfl, rfl, ?_, ?_, ?_, ?_⟩
          · exact lookup_setBranch_same _ cur h0
          · rw [lookup_setBranch_other _ cur branch h0 (Ne.symm hne)]
            exact lookup_setBranch_same _ branch L
          · refine ⟨fun h => (by cases h), fun hall => absurd (hall rh rfl) hsfx⟩
          · intro _
            exact hEr
          · intro h; cases h
        · rfl
        · exact hEw
        · rfl

/-- Behaviour of the transplant phase and everything after it, for any
state `s4` on the auto-save branch that is clean, not mid-rebase, and
carries the temporary commit on top of the original branch `cur`:
whatever the cherry-pick does (applies, is empty, or conflicts), the
cycle ends back on `cur` with its history restored to `h0`, the working
tree at the snapshot content `w`, the index at the old tip tree, and an
outcome of `aborted` or `success`. -/
lemma cherry_phase (branch now : String) (pats : List String)
    (cur : String) (w : Tree) (h0 : List Commit) (s4 : RepoState)
    (hne : cur ≠ branch)
    (hh4 : s4.head = branch)
    (hc4 : lookupBranch s4.branches cur = some (Commit.mk w tempMsg :: h0))
    (h0ne : h0 ≠ [])
    (hcl4 : s4.worktree = s4.index)
    (hreb4 : s4.rebasing = false)
    (hpat : ∀ pat ∈ pats, ∀ q, globMatch pat q = true →
      (Tree.find w q).isSome = true) :
    ((match cherry_pick (tipTree h0) (Commit.mk w tempMsg) s4 with
      | Except.ok s5 => finishCycle branch cur now pats s5
      | Except.error e =>
          if containsSubstr e.msg emptyMark then
            finishCycle branch cur now pats s4
          else
            match cherry_pick_abort s4 with
            | Except.error e2 => (s4, Outcome.failed e2.msg)
            | Except.ok s5 => rollbackSteps cur Outcome.aborted s5).1.head = cur ∧
     lookupBranch (match cherry_pick (tipTree h0) (Commit.mk w tempMsg) s4 with
      | Except.ok s5 => finishCycle branch cur now pats s5
      | Except.error e =>
          if containsSubstr e.msg emptyMark then
            finishCycle branch cur now pats s4
          else
            match cherry_pick_abort s4 with
            | Except.error e2 => (s4, Outcome.failed e2.msg)
            | Except.ok s5 => rollbackSteps cur Outcome.aborted s5).1.branches cur = some h0 ∧
     (match cherry_pick (tipTree h0) (Commit.mk w tempMsg) s4 with
      | Except.ok s5 => finishCycle branch cur now pats s5
      | Except.error e =>
          if containsSubstr e.msg emptyMark then
            finishCycle branch cur now pats s4
          else
            match cherry_pick_abort s4 with
            | Except.error e2 => (s4, Outcome.failed e2.msg)
            | Except.ok s5 => rollbackSteps cur Outcome.aborted s5).1.worktree = w ∧
     (match cherry_pick (tipTree h0) (Commit.mk w tempMsg) s4 with
      | Except.ok s5 => finishCycle branch cur now pats s5
      | Except.error e =>
          if containsSubstr e.msg emptyMark then
            finishCycle branch cur now pats s4
          else
            match cherry_pick_abort s4 with
            | Except.error e2 => (s4, Outcome.failed e2.msg)
            | Except.ok s5 => rollbackSteps cur Outcome.aborted s5).1.index = tipTree h0 ∧
     ((match cherry_pick (tipTree h0) (Commit.mk w tempMsg) s4 with
      | Except.ok s5 => finishCycle branch cur now pats s5
      | Except.error e =>
          if containsSubstr e.msg emptyMark then
            finishCycle branch cur now pats s4
          else
            match cherry_pick_abort s4 with
            | Except.error e2 => (s4, Outcome.failed e2.msg)
            | Except.ok s5 => rollbackSteps cur Outcome.aborted s5).2 = Outcome.aborted ∨
      ∃ pk, (match cherry_pick (tipTree h0) (Commit.mk w tempMsg) s4 with
      | Except.ok s5 => finishCycle branch cur now pats s5
      | Except.error e =>
          if containsSubstr e.msg emptyMark then
            finishCycle branch cur now pats s4
          else
            match cherry_pick_abort s4 with
            | Except.error e2 => (s4, Outcome.failed e2.msg)
            | Except.ok s5 => rollbackSteps cur Outcome.aborted s5).2 = Outcome.success pk)) := by
  have habort : cherry_pick_abort s4 = Except.ok s4 := by
    simp [cherry_pick_abort, hreb4]
  cases hcp : cherry_pick (tipTree h0) (Commit.mk w tempMsg) s4 with
  | ok s5 =>
      obtain ⟨hh5, hr5, hlk5, hcl5⟩ := cherry_pick_ok_facts _ _ _ _ hcp hcl4
      obtain ⟨pk, o1, o2, o3, o4, o5, _, _, _⟩ :=
        finish_spec branch cur now pats s5 (Commit.mk w tempMsg) h0
          (by rw [hh5, hh4]) hne
          (by rw [hlk5 cur (by rw [hh4]; exact hne)]; exact hc4)
          h0ne
          (fun kv hkv => by
            rw [hcl5] at hkv
            exact Tree.find_isSome_of_mem s5.index kv hkv)
          hpat
      exact ⟨o2, o3, o4, o5, Or.inr ⟨pk, o1⟩⟩
  | error e =>
      dsimp only
      by_cases hem : containsSubstr e.msg emptyMark = true
      · rw [if_pos hem]
        obtain ⟨pk, o1, o2, o3, o4, o5, _, _, _⟩ :=
          finish_spec branch cur now pats s4 (Commit.mk w tempMsg) h0
            hh4 hne hc4 h0ne
            (fun kv hkv => by
              rw [hcl4] at hkv
              exact Tree.find_isSome_of_mem s4.index kv hkv)
            hpat
        exact ⟨o2, o3, o4, o5, Or.inr ⟨pk, o1⟩⟩
      · rw [if_neg hem, habort]
        dsimp only
        rw [rollback_spec cur Outcome.aborted s4 (Commit.mk w tempMsg) h0 hc4
          h0ne
          (fun kv hkv => Or.inl (by
            rw [hcl4] at hkv
            exact Tree.find_isSome_of_mem s4.index kv hkv))]
        exact ⟨rfl, lookup_setBranch_same _ cur h0, rfl, rfl, Or.inl rfl⟩

/-- Master trace of one dirty cycle of `commit_and_push`, under the
assumptions that the original branch differs from the auto-save branch
and has at least one commit, the auto-save branch exists locally, the
repository is not already mid-rebase, the remote auto-save branch (when
it exists) has not diverged from the local one, and every exclusion
pattern only matches paths present in the working tree: the cycle always
reaches the rollback, so the original branch pointer, its history and
the working-tree content are restored, the index is reset to the old tip
tree, and the outcome is `aborted` or `success`. -/
lemma cycle_master (branch now : String) (pats : List String)
    (s0 : RepoState) (h0 hb : List Commit)
    (hd : is_dirty s0 = true)
    (hhead : s0.head ≠ branch)
    (hcur : lookupBranch s0.branches s0.head = some h0)
    (h0ne : h0 ≠ [])
    (hloc : lookupBranch s0.branches branch = some hb)
    (hreb : s0.rebasing = false)
    (hnd : ∀ rh, lookupBranch s0.remote branch = some rh →
      rh <:+ hb ∨ hb <:+ rh)
    (hpat : ∀ pat ∈ pats, ∀ q, globMatch pat q = true →
      (Tree.find s0.worktree q).isSome = true) :
    (commit_and_push branch pats now s0).1.head = s0.head ∧
    lookupBranch (commit_and_push branch pats now s0).1.branches s0.head =
      some h0 ∧
    (commit_and_push branch pats now s0).1.worktree = s0.worktree ∧
    (commit_and_push branch pats now s0).1.index = tipTree h0 ∧
    ((commit_and_push branch pats now s0).2 = Outcome.aborted ∨
      ∃ pk, (commit_and_push branch pats now s0).2 = Outcome.success pk) := by
  have htc2 : (index_commit tempMsg (add_A s0)).2 =
      { s0 with
        branches := setBranch s0.branches s0.head
          (Commit.mk s0.worktree tempMsg :: h0),
        index := s0.worktree } := by
    simp [index_commit, add_A, headHistory, hcur]
  have htc1 : (index_commit tempMsg (add_A s0)).1 =
      Commit.mk s0.worktree tempMsg := by
    simp [index_commit, add_A]
  have hbase : headTree (add_A s0) = tipTree h0 := by
    simp [headTree, headHistory, add_A, hcur]
  have hlk3 : lookupBranch (setBranch s0.branches s0.head
      (Commit.mk s0.worktree tempMsg :: h0)) branch = some hb := by
    rw [lookup_setBranch_other s0.branches s0.head branch _ (Ne.symm hhead)]
    exact hloc
  have hco : checkout branch (index_commit tempMsg (add_A s0)).2 =
      Except.ok (postSnapState branch s0 h0 hb) := by
    rw [htc2]
    rw [checkout_ok_clean branch _ hb hlk3 rfl]
    rfl
  have hc3 : lookupBranch (postSnapState branch s0 h0 hb).branches s0.head =
      some (Commit.mk s0.worktree tempMsg :: h0) := by
    show lookupBranch (setBranch s0.branches s0.head
      (Commit.mk s0.worktree tempMsg :: h0)) s0.head = _
    exact lookup_setBranch_same _ _ _
  have hndP : ∀ rh, lookupBranch (postSnapState branch s0 h0 hb).remote
      branch = some rh →
      rh <:+ (lookupBranch (postSnapState branch s0 h0 hb).branches
        branch).getD [] ∨
      (lookupBranch (postSnapState branch s0 h0 hb).branches
        branch).getD [] <:+ rh := by
    intro rh h
    have hg : (lookupBranch (postSnapState branch s0 h0 hb).branches
        branch).getD [] = hb := by
      rw [show lookupBranch (postSnapState branch s0 h0 hb).branches branch =
        some hb from hlk3]
      rfl
    rw [hg]
    exact hnd rh h
  obtain ⟨f1, f2, f3, f4, f5⟩ :=
    pull_nodiv_facts branch (postSnapState branch s0 h0 hb) rfl hndP
  simp only [commit_and_push, hd, if_true]
  rw [hbase, htc1, hco]
  dsimp only
  exact cherry_phase branch now pats s0.head s0.worktree h0
    ((pull_rebase branch (postSnapState branch s0 h0 hb)).1) hhead
    (by rw [f1]; rfl)
    (by rw [f3 s0.head hhead]; exact hc3)
    h0ne f4
    (by rw [f5]; exact hreb)
    hpat


/-- A successful `ensure_branch_exists` leaves the auto-save branch
checked out and present on the remote; when the state was well formed
(the checked-out branch exists in the branch table), the auto-save branch
also exists locally afterwards. -/
lemma ensure_ok_facts (b : String) (s s1 : RepoState)
    (h : ensure_branch_exists b s = Except.ok s1) :
    s1.head = b ∧ b ∈ remoteNames s1 ∧
    (lookupBranch s.branches s.head ≠ none →
      lookupBranch s1.branches b ≠ none) := by
  unfold ensure_branch_exists at h
  split at h
  · cases h
  · rename_i s2 heq
    have hstep : s2.head = b ∧ s2.branches = s.branches ∧ s.head = b ∨
        (s2.head = b ∧ lookupBranch s2.branches b ≠ none) := by
      by_cases hsb : s.head = b
      · rw [if_pos hsb] at heq
        cases heq
        exact Or.inl ⟨hsb, rfl, hsb⟩
      · rw [if_neg hsb] at heq
        by_cases hnn : (lookupBranch s.branches b).isNone
        · rw [if_pos hnn] at heq
          have h2 := checkout_b_ok_facts b s s2 heq
          subst h2
          refine Or.inr ⟨rfl, ?_⟩
          rw [show ({ s with
            branches := setBranch s.branches b (headHistory s),
            head := b } : RepoState).branches =
              setBranch s.branches b (headHistory s) from rfl]
          rw [lookup_setBranch_same]
          exact fun hx => by cases hx
        · rw [if_neg hnn] at heq
          obtain ⟨e1, e2, _e3⟩ := checkout_ok_facts b s s2 heq
          refine Or.inr ⟨e1, ?_⟩
          rw [e2]
          exact fun hn => hnn (by rw [hn]; rfl)
    have hlocal : s2.head = b ∧
        (lookupBranch s.branches s.head ≠ none →
          lookupBranch s2.branches b ≠ none) := by
      rcases hstep with ⟨p1, p2, p3⟩ | ⟨p1, p2⟩
      · exact ⟨p1, fun hwf => by rw [p2, ← p3]; exact hwf⟩
      · exact ⟨p1, fun _ => p2⟩
    by_cases hrm : b ∈ remoteNames s2
    · rw [if_pos hrm] at h
      cases h
      exact ⟨hlocal.1, hrm, hlocal.2⟩
    · rw [if_neg hrm] at h
      have hc := pushBranch_ok_char b s2 s1 h
      subst hc
      refine ⟨hlocal.1, ?_, hlocal.2⟩
      show b ∈ remoteNames { s2 with
        remote := setBranch s2.remote b ((lookupBranch s2.branches b).getD []) }
      simp [remoteNames, setBranch]

/-- A call to `ensure_branch_exists` on a state whose HEAD is already the
auto-save branch and whose remote already has it is the identity. -/
lemma ensure_reconciled (b : String) (s : RepoState)
    (h1 : s.head = b) (h2 : b ∈ remoteNames s) :
    ensure_branch_exists b s = Except.ok s := by
  simp [ensure_branch_exists, h1, h2]

/-! Claim theorems. -/

/-- C4: for every repository state with no uncommitted tracked
modifications, no staged changes and no untracked files
(`is_dirty` false), `commit_and_push` returns the state unchanged — no
commit, checkout, pull or push — and the outcome is `noop`. -/
theorem c4_noop_on_clean (branch : String) (pats : List String)
    (now : String) (s : RepoState) (h : is_dirty s = false) :
    commit_and_push branch pats now s = (s, Outcome.noop) := by
  simp [commit_and_push, h]

/-- C4 witness: the no-op theorem applied to the concrete clean state. -/
theorem c4_noop_on_clean_witness :
    commit_and_push "autosave" [] "NOW" sClean = (sClean, Outcome.noop) :=
  c4_noop_on_clean "autosave" [] "NOW" sClean (by decide)

/-- C5: exclusion-filter correctness.  An empty or whitespace-only
pattern is skipped; a pattern matching no tracked file is skipped without
error; a matching pattern removes exactly the matching paths from the
index and leaves the working tree (the files on disk) untouched; and in
the concrete `*.log` scenario the final auto-save commit pushed to the
remote contains `b.txt` but not `a.log`, while `a.log` is still on disk
afterwards. -/
theorem c5_exclusion_filter :
    (∀ (p : String) (rest : List String) (s : RepoState),
      stripNonEmpty p = false →
      applyExclusions (p :: rest) s = applyExclusions rest s) ∧
    (∀ (p : String) (rest : List String) (s : RepoState), ls_files p s = [] →
      applyExclusions (p :: rest) s = applyExclusions rest s) ∧
    (∀ (p : String) (s : RepoState), ls_files p s ≠ [] →
      rm_r_cached p s = Except.ok { s with
        index := s.index.filter (fun kv => !(globMatch p kv.1)) }) ∧
    Tree.find (tipTree ((lookupBranch
      (commit_and_push "autosave" ["*.log"] "NOW" sExcl).1.remote
      "autosave").getD [])) "b.txt" = some "vb" ∧
    Tree.find (tipTree ((lookupBranch
      (commit_and_push "autosave" ["*.log"] "NOW" sExcl).1.remote
      "autosave").getD [])) "a.log" = none ∧
    Tree.find (commit_and_push "autosave" ["*.log"] "NOW" sExcl).1.worktree
      "a.log" = some "L" ∧
    (commit_and_push "autosave" ["*.log"] "NOW" sExcl).2 =
      Outcome.success true := by
  refine ⟨?_, ?_, ?_, ?_, ?_, ?_, ?_⟩
  · intro p rest s h
    simp [applyExclusions, h]
  · intro p rest s h
    by_cases h1 : stripNonEmpty p <;> simp [applyExclusions, h1, h]
  · intro p s h
    simp [rm_r_cached, h]
  · decide
  · decide
  · decide
  · decide

/-- C5 witness: the skip clauses of the exclusion theorem applied at
concrete inputs (a whitespace pattern and a pattern matching no tracked
file). -/
theorem c5_exclusion_filter_witness :
    applyExclusions ["  "] sExcl = applyExclusions [] sExcl ∧
    applyExclusions ["*.zip"] sExcl = applyExclusions [] sExcl ∧
    rm_r_cached "*.log" (add_A sExcl) = Except.ok { (add_A sExcl) with
      index := (add_A sExcl).index.filter
        (fun kv => !(globMatch "*.log" kv.1)) } :=
  ⟨c5_exclusion_filter.1 "  " [] sExcl (by decide),
   c5_exclusion_filter.2.1 "*.zip" [] sExcl (by decide),
   c5_exclusion_filter.2.2.1 "*.log" (add_A sExcl) (by decide)⟩

/-- C7: reconciliation is idempotent — a second `ensure_branch_exists`
right after a successful one returns the same state unchanged — and on an
already-reconciled repository (auto-save branch checked out and present
on the remote) a call mutates nothing. -/
theorem c7_ensure_idempotent :
    (∀ (b : String) (s s1 : RepoState),
      ensure_branch_exists b s = Except.ok s1 →
      ensure_branch_exists b s1 = Except.ok s1) ∧
    (∀ (b : String) (s : RepoState), s.head = b → b ∈ remoteNames s →
      ensure_branch_exists b s = Except.ok s) := by
  constructor
  · intro b s s1 h
    obtain ⟨h1, h2, _⟩ := ensure_ok_facts b s s1 h
    exact ensure_reconciled b s1 h1 h2
  · intro b s h1 h2
    exact ensure_reconciled b s h1 h2

/-- C7 witness: idempotence at the concrete scenario — the state produced
by reconciling `sInit` is a fixed point of `ensure_branch_exists`. -/
theorem c7_ensure_idempotent_witness :
    ensure_branch_exists "autosave/work" sReconciled =
      Except.ok sReconciled :=
  c7_ensure_idempotent.1 "autosave/work" sInit sReconciled rfl

/-- C8 counterexample: `commit_and_push` does not invoke the branch
reconciler.  On a dirty repository whose auto-save branch is absent both
locally and remotely, the cycle ends with the outer exception handler and
the auto-save branch still does not exist anywhere, instead of being
created before the transplant as the claim states. -/
theorem c8_per_cycle_counterexample :
    is_dirty sNoBranch = true ∧
    lookupBranch (commit_and_push "autosave/work" [] "NOW"
      sNoBranch).1.branches "autosave/work" = none ∧
    ¬ "autosave/work" ∈ remoteNames
      (commit_and_push "autosave/work" [] "NOW" sNoBranch).1 ∧
    (commit_and_push "autosave/work" [] "NOW" sNoBranch).2 =
      Outcome.failed
        "error: pathspec autosave/work did not match any file(s) known to git" := by
  decide

/-- C8 amended: reconciliation of the auto-save branch is performed once,
at engine construction — a successful `git_manager_init` on a well-formed
repository leaves the auto-save branch existing locally, present on the
remote, and checked out; `commit_and_push` relies on this and performs no
reconciliation of its own. -/
theorem c8_construction_reconciles (b : String) (s s1 : RepoState)
    (hwf : lookupBranch s.branches s.head ≠ none)
    (hinit : git_manager_init b s = Except.ok s1) :
    lookupBranch s1.branches b ≠ none ∧ b ∈ remoteNames s1 ∧ s1.head = b := by
  obtain ⟨h1, h2, h3⟩ := ensure_ok_facts b s s1 hinit
  exact ⟨h3 hwf, h2, h1⟩

/-- C8 witness: construction-time reconciliation at the concrete
scenario. -/
theorem c8_construction_reconciles_witness :
    lookupBranch sReconciled.branches "autosave/work" ≠ none ∧
    "autosave/work" ∈ remoteNames sReconciled ∧
    sReconciled.head = "autosave/work" :=
  c8_construction_reconciles "autosave/work" sInit sReconciled
    (by decide) rfl

/-- C10: after a successful `git_manager.__init__`, the repository's
checked-out branch is the configured auto-save branch, whatever was
checked out before; initialization never switches back. -/
theorem c10_init_switches_checkout (b : String) (s s1 : RepoState)
    (h : git_manager_init b s = Except.ok s1) : s1.head = b :=
  (ensure_ok_facts b s s1 h).1

/-- C10 witness: construction on the scenario repository (which was on
`work`) ends with `autosave/work` checked out. -/
theorem c10_init_switches_checkout_witness :
    sReconciled.head = "autosave/work" :=
  c10_init_switches_checkout "autosave/work" sInit sReconciled rfl

/-- The second failure mode that keeps the rollback invariant from being
unconditional: on the concrete diverged remote, the pull stops
mid-rebase, the cherry-pick then refuses to start ("unmerged files",
which lacks the empty marker), `cherry-pick --abort` itself raises ("no
cherry-pick or revert in progress") to the outer handler, and no
rollback runs — HEAD stays on the auto-save branch mid-rebase and the
temporary commit remains on `work`.  This is why the amended rollback
theorems assume a non-diverged remote. -/
lemma diverged_pull_no_rollback :
    (commit_and_push "autosave" [] "NOW" sDiverged).2 =
      Outcome.failed "error: no cherry-pick or revert in progress" ∧
    (commit_and_push "autosave" [] "NOW" sDiverged).1.head = "autosave" ∧
    (commit_and_push "autosave" [] "NOW" sDiverged).1.rebasing = true ∧
    lookupBranch (commit_and_push "autosave" [] "NOW" sDiverged).1.branches
      "work" = some [Commit.mk [("README.md", "r1")] tempMsg, c0] := by
  decide

/-- C1 counterexample: a run of `commit_and_push` in which the temporary
snapshot commit is created (the tree is dirty) but the cycle does not
proceed to the rollback step — the checkout of the locally absent
auto-save branch raises, the outer handler at line 168 only logs, and the
original branch `work` is left pointing at the temporary commit instead
of its pre-cycle value. -/
theorem c1_rollback_counterexample :
    is_dirty sNoBranch = true ∧
    lookupBranch sNoBranch.branches "work" = some [c0] ∧
    lookupBranch (commit_and_push "autosave/work" [] "NOW"
      sNoBranch).1.branches "work" =
      some [Commit.mk [("x.txt", "v1"), ("README.md", "r0")] tempMsg, c0] ∧
    (commit_and_push "autosave/work" [] "NOW" sNoBranch).2 =
      Outcome.failed
        "error: pathspec autosave/work did not match any file(s) known to git" := by
  decide

/-- C1 amended: provided the original branch differs from the auto-save
branch and has at least one commit, the auto-save branch exists locally,
the repository is not already mid-rebase, the remote auto-save branch
(when it exists) has not diverged from the local one — so the pull
cannot stop mid-rebase — and every exclusion pattern matches only paths
present in the snapshot, every dirty cycle — success, push failure or
transplant abort — reaches the rollback: afterwards the original branch
is checked out again, its pointer (history) equals its pre-cycle value
with the temporary commit removed, and the working tree is
byte-identical to its pre-cycle content. -/
theorem c1_rollback_invariant_amended (branch now : String)
    (pats : List String) (s0 : RepoState) (h0 hb : List Commit)
    (hd : is_dirty s0 = true) (hhead : s0.head ≠ branch)
    (hcur : lookupBranch s0.branches s0.head = some h0) (h0ne : h0 ≠ [])
    (hloc : lookupBranch s0.branches branch = some hb)
    (hreb : s0.rebasing = false)
    (hnd : ∀ rh, lookupBranch s0.remote branch = some rh →
      rh <:+ hb ∨ hb <:+ rh)
    (hpat : ∀ pat ∈ pats, ∀ q, globMatch pat q = true →
      (Tree.find s0.worktree q).isSome = true) :
    (commit_and_push branch pats now s0).1.head = s0.head ∧
    lookupBranch (commit_and_push branch pats now s0).1.branches s0.head =
      some h0 ∧
    (commit_and_push branch pats now s0).1.worktree = s0.worktree ∧
    ((commit_and_push branch pats now s0).2 = Outcome.aborted ∨
      ∃ pk, (commit_and_push branch pats now s0).2 = Outcome.success pk) := by
  obtain ⟨a, b, c, _, e⟩ :=
    cycle_master branch now pats s0 h0 hb hd hhead hcur h0ne hloc hreb
      hnd hpat
  exact ⟨a, b, c, e⟩

/-- C1 witness: the amended rollback invariant at the concrete conflict
scenario. -/
theorem c1_rollback_invariant_amended_witness :
    (commit_and_push "autosave" [] "NOW" sConf).1.head = sConf.head ∧
    lookupBranch (commit_and_push "autosave" [] "NOW" sConf).1.branches
      sConf.head = some [c0] ∧
    (commit_and_push "autosave" [] "NOW" sConf).1.worktree = sConf.worktree ∧
    ((commit_and_push "autosave" [] "NOW" sConf).2 = Outcome.aborted ∨
      ∃ pk, (commit_and_push "autosave" [] "NOW" sConf).2 =
        Outcome.success pk) :=
  c1_rollback_invariant_amended "autosave" "NOW" [] sConf [c0] [cConf, c0]
    (by decide) (by decide) (by decide) (by decide) (by decide) (by decide)
    (fun rh h => by
      cases (show (some [cConf, c0] : Option (List Commit)) = some rh from h)
      exact Or.inl (by decide))
    (fun pat hp => absurd hp (List.not_mem_nil pat))

/-- C2 counterexample: in the claimed scenario — on `work`, no
`autosave/work` branch locally or remotely, dirty `x.txt = v1` — one call
to `commit_and_push` does not create `autosave/work` anywhere, does not
leave `work` at its prior commit (the temporary commit remains), and does
not succeed: the checkout of the missing branch raises and the outer
handler returns. -/
theorem c2_scenario_counterexample :
    is_dirty sNoBranch = true ∧
    lookupBranch sNoBranch.branches "autosave/work" = none ∧
    lookupBranch sNoBranch.remote "autosave/work" = none ∧
    lookupBranch (commit_and_push "autosave/work" [] "NOW"
      sNoBranch).1.branches "autosave/work" = none ∧
    lookupBranch (commit_and_push "autosave/work" [] "NOW"
      sNoBranch).1.remote "autosave/work" = none ∧
    ¬ lookupBranch (commit_and_push "autosave/work" [] "NOW"
      sNoBranch).1.branches "work" = some [c0] ∧
    ¬ (commit_and_push "autosave/work" [] "NOW" sNoBranch).2 =
      Outcome.success true := by
  decide

/-- C2 amended: with the branch creation done where the code actually
does it — at engine construction — the scenario holds except for the
commit count: constructing the engine on the clean repository creates
`autosave/work` locally and on the remote; after checking out `work`
again and editing `x.txt = v1`, one cycle succeeds, leaves `work` at its
prior commit with `x.txt` present on disk but untracked, and pushes
`autosave/work` with exactly two new commits (the transplanted snapshot
and the timestamped auto-commit), whose tip tree has `x.txt = v1`. -/
theorem c2_scenario_amended :
    c2_run.2 = Outcome.success true ∧
    c2_run.1.head = "work" ∧
    lookupBranch c2_run.1.branches "work" = some [c0] ∧
    Tree.find c2_run.1.worktree "x.txt" = some "v1" ∧
    Tree.find c2_run.1.index "x.txt" = none ∧
    (lookupBranch c2_run.1.remote "autosave/work").map List.length =
      some 3 ∧
    Tree.find (tipTree ((lookupBranch c2_run.1.remote
      "autosave/work").getD [])) "x.txt" = some "v1" ∧
    lookupBranch c2_run.1.branches "autosave/work" =
      lookupBranch c2_run.1.remote "autosave/work" := by
  decide

/-- C9: rollback does not restore the pre-cycle staging state.  Whenever
the cycle does run its rollback — under the same hypotheses as the
amended rollback invariant, which also keep the pull from stopping
mid-rebase — the index afterwards equals the pre-cycle HEAD tip tree
(the mixed `reset HEAD~1`), so a path whose pre-cycle index entry
differed from the tip — a staged change — ends the cycle unstaged, while
the file content on disk is unchanged. -/
theorem c9_staging_not_restored (branch now : String) (pats : List String)
    (s0 : RepoState) (h0 hb : List Commit) (q : String)
    (hd : is_dirty s0 = true) (hhead : s0.head ≠ branch)
    (hcur : lookupBranch s0.branches s0.head = some h0) (h0ne : h0 ≠ [])
    (hloc : lookupBranch s0.branches branch = some hb)
    (hreb : s0.rebasing = false)
    (hnd : ∀ rh, lookupBranch s0.remote branch = some rh →
      rh <:+ hb ∨ hb <:+ rh)
    (hpat : ∀ pat ∈ pats, ∀ q1, globMatch pat q1 = true →
      (Tree.find s0.worktree q1).isSome = true)
    (hst : Tree.find s0.index q ≠ Tree.find (tipTree h0) q) :
    (commit_and_push branch pats now s0).1.index = tipTree h0 ∧
    (commit_and_push branch pats now s0).1.worktree = s0.worktree ∧
    Tree.find (commit_and_push branch pats now s0).1.index q ≠
      Tree.find s0.index q := by
  obtain ⟨_, _, c, d, _⟩ :=
    cycle_master branch now pats s0 h0 hb hd hhead hcur h0ne hloc hreb
      hnd hpat
  refine ⟨d, c, ?_⟩
  rw [d]
  exact fun he => hst he.symm

/-- C9 witness: the staging loss at the concrete staged scenario — the
staged edit of `README.md` ends the cycle unstaged. -/
theorem c9_staging_not_restored_witness :
    (commit_and_push "autosave" [] "NOW" sStaged).1.index = tipTree [c0] ∧
    (commit_and_push "autosave" [] "NOW" sStaged).1.worktree =
      sStaged.worktree ∧
    Tree.find (commit_and_push "autosave" [] "NOW" sStaged).1.index
      "README.md" ≠ Tree.find sStaged.index "README.md" :=
  c9_staging_not_restored "autosave" "NOW" [] sStaged [c0] [c0] "README.md"
    (by decide) (by decide) (by decide) (by decide) (by decide) (by decide)
    (fun rh h => by
      cases (show (some [c0] : Option (List Commit)) = some rh from h)
      exact Or.inl (by decide))
    (fun pat hp => absurd hp (List.not_mem_nil pat)) (by decide)

/-- C3: conflict abort atomicity.  When the transplant of the temporary
commit onto the auto-save branch conflicts (no clean application of the
diff), `commit_and_push` aborts the cherry-pick, leaves the auto-save
branch exactly as it was (no new commit) and its remote untouched (no
push), reports the cycle as `aborted`, and still checks out the original
branch and removes the temporary commit from it.  (The repository is
assumed not to start mid-rebase, and the pull is assumed up to date —
`rh <:+ hb` — so "unmodified" is meaningful.) -/
theorem c3_conflict_abort (branch now : String) (pats : List String)
    (s0 : RepoState) (h0 hb rh : List Commit)
    (hd : is_dirty s0 = true) (hhead : s0.head ≠ branch)
    (hcur : lookupBranch s0.branches s0.head = some h0) (h0ne : h0 ≠ [])
    (hloc : lookupBranch s0.branches branch = some hb)
    (hreb : s0.rebasing = false)
    (hrem : lookupBranch s0.remote branch = some rh) (hsfx : rh <:+ hb)
    (hconf : applyDiff (tipTree h0) s0.worktree (tipTree hb) = none) :
    (commit_and_push branch pats now s0).2 = Outcome.aborted ∧
    lookupBranch (commit_and_push branch pats now s0).1.branches branch =
      some hb ∧
    (commit_and_push branch pats now s0).1.remote = s0.remote ∧
    (commit_and_push branch pats now s0).1.head = s0.head ∧
    lookupBranch (commit_and_push branch pats now s0).1.branches s0.head =
      some h0 ∧
    (commit_and_push branch pats now s0).1.worktree = s0.worktree := by
  have htc2 : (index_commit tempMsg (add_A s0)).2 =
      { s0 with
        branches := setBranch s0.branches s0.head
          (Commit.mk s0.worktree tempMsg :: h0),
        index := s0.worktree } := by
    simp [index_commit, add_A, headHistory, hcur]
  have htc1 : (index_commit tempMsg (add_A s0)).1 =
      Commit.mk s0.worktree tempMsg := by
    simp [index_commit, add_A]
  have hbase : headTree (add_A s0) = tipTree h0 := by
    simp [headTree, headHistory, add_A, hcur]
  have hlk3 : lookupBranch (setBranch s0.branches s0.head
      (Commit.mk s0.worktree tempMsg :: h0)) branch = some hb := by
    rw [lookup_setBranch_other s0.branches s0.head branch _ (Ne.symm hhead)]
    exact hloc
  have hco : checkout branch (index_commit tempMsg (add_A s0)).2 =
      Except.ok (postSnapState branch s0 h0 hb) := by
    rw [htc2]
    rw [checkout_ok_clean branch _ hb hlk3 rfl]
    rfl
  have hpull : pull_rebase branch (postSnapState branch s0 h0 hb) =
      ((postSnapState branch s0 h0 hb), none) := by
    simp [pull_rebase, postSnapState, hrem, hlk3, hsfx]
  have hht : headTree (postSnapState branch s0 h0 hb) = tipTree hb := by
    simp [headTree, headHistory, postSnapState, hlk3]
  have hrebP : (postSnapState branch s0 h0 hb).rebasing = false := hreb
  have hcherry : cherry_pick (tipTree h0) (Commit.mk s0.worktree tempMsg)
      (postSnapState branch s0 h0 hb) =
      Except.error ⟨"error: could not apply " ++ tempMsg⟩ := by
    simp only [cherry_pick, hrebP, Bool.false_eq_true, if_false, hht]
    rw [hconf]
  have habort : cherry_pick_abort (postSnapState branch s0 h0 hb) =
      Except.ok (postSnapState branch s0 h0 hb) := by
    simp [cherry_pick_abort, hrebP]
  have hnotmark :
      ¬(containsSubstr ("error: could not apply " ++ tempMsg)
        emptyMark = true) := by
    decide
  have hc3 : lookupBranch (postSnapState branch s0 h0 hb).branches s0.head =
      some (Commit.mk s0.worktree tempMsg :: h0) := by
    show lookupBranch (setBranch s0.branches s0.head
      (Commit.mk s0.worktree tempMsg :: h0)) s0.head = _
    exact lookup_setBranch_same _ _ _
  simp only [commit_and_push, hd, if_true]
  rw [hbase, htc1, hco]
  dsimp only
  rw [hpull]
  dsimp only
  rw [hcherry]
  dsimp only
  rw [if_neg hnotmark, habort]
  dsimp only
  rw [rollback_spec s0.head Outcome.aborted (postSnapState branch s0 h0 hb)
    (Commit.mk s0.worktree tempMsg) h0 hc3 h0ne
    (fun kv hkv => Or.inl (Tree.find_isSome_of_mem _ kv hkv))]
  refine ⟨rfl, ?_, rfl, rfl, ?_, rfl⟩
  · rw [lookup_setBranch_other _ s0.head branch h0 (Ne.symm hhead)]
    exact hlk3
  · exact lookup_setBranch_same _ _ _

/-- C3 witness: conflict abort at the concrete conflict scenario. -/
theorem c3_conflict_abort_witness :
    (commit_and_push "autosave" [] "NOW" sConf).2 = Outcome.aborted ∧
    lookupBranch (commit_and_push "autosave" [] "NOW" sConf).1.branches
      "autosave" = some [cConf, c0] ∧
    (commit_and_push "autosave" [] "NOW" sConf).1.remote = sConf.remote ∧
    (commit_and_push "autosave" [] "NOW" sConf).1.head = sConf.head ∧
    lookupBranch (commit_and_push "autosave" [] "NOW" sConf).1.branches
      sConf.head = some [c0] ∧
    (commit_and_push "autosave" [] "NOW" sConf).1.worktree = sConf.worktree :=
  c3_conflict_abort "autosave" "NOW" [] sConf [c0] [cConf, c0] [cConf, c0]
    (by decide) (by decide) (by decide) (by decide) (by decide) (by decide)
    (by decide) (by decide) (by decide)

/-- C6: empty-diff transplant handling.  When applying the snapshot's
diff onto the auto-save tip yields a tree equal to that tip, the
cherry-pick raises the "previous cherry-pick is now empty" message, which
`commit_and_push` recognizes by substring and treats as a skip, not a
conflict: the cycle continues through exclusion filtering, the final
auto-commit and the push, ends with outcome `success`, and the rollback
still restores the original branch. -/
theorem c6_empty_diff_skip (branch now : String) (pats : List String)
    (s0 : RepoState) (h0 hb rh : List Commit) (res : Tree)
    (hd : is_dirty s0 = true) (hhead : s0.head ≠ branch)
    (hcur : lookupBranch s0.branches s0.head = some h0) (h0ne : h0 ≠ [])
    (hloc : lookupBranch s0.branches branch = some hb)
    (hreb : s0.rebasing = false)
    (hrem : lookupBranch s0.remote branch = some rh) (hsfx : rh <:+ hb)
    (hpat : ∀ pat ∈ pats, ∀ q, globMatch pat q = true →
      (Tree.find s0.worktree q).isSome = true)
    (hdiff : applyDiff (tipTree h0) s0.worktree (tipTree hb) = some res)
    (hemp : Tree.eqv res (tipTree hb) = true) :
    (commit_and_push branch pats now s0).2 = Outcome.success true ∧
    (∃ t : Tree, lookupBranch (commit_and_push branch pats now
      s0).1.branches branch =
      some (Commit.mk t ("Auto-commit on " ++ now ++ ".") :: hb)) ∧
    (commit_and_push branch pats now s0).1.head = s0.head ∧
    lookupBranch (commit_and_push branch pats now s0).1.branches s0.head =
      some h0 ∧
    (commit_and_push branch pats now s0).1.worktree = s0.worktree := by
  have htc2 : (index_commit tempMsg (add_A s0)).2 =
      { s0 with
        branches := setBranch s0.branches s0.head
          (Commit.mk s0.worktree tempMsg :: h0),
        index := s0.worktree } := by
    simp [index_commit, add_A, headHistory, hcur]
  have htc1 : (index_commit tempMsg (add_A s0)).1 =
      Commit.mk s0.worktree tempMsg := by
    simp [index_commit, add_A]
  have hbase : headTree (add_A s0) = tipTree h0 := by
    simp [headTree, headHistory, add_A, hcur]
  have hlk3 : lookupBranch (setBranch s0.branches s0.head
      (Commit.mk s0.worktree tempMsg :: h0)) branch = some hb := by
    rw [lookup_setBranch_other s0.branches s0.head branch _ (Ne.symm hhead)]
    exact hloc
  have hco : checkout branch (index_commit tempMsg (add_A s0)).2 =
      Except.ok (postSnapState branch s0 h0 hb) := by
    rw [htc2]
    rw [checkout_ok_clean branch _ hb hlk3 rfl]
    rfl
  have hpull : pull_rebase branch (postSnapState branch s0 h0 hb) =
      ((postSnapState branch s0 h0 hb), none) := by
    simp [pull_rebase, postSnapState, hrem, hlk3, hsfx]
  have hht : headTree (postSnapState branch s0 h0 hb) = tipTree hb := by
    simp [headTree, headHistory, postSnapState, hlk3]
  have hrebP : (postSnapState branch s0 h0 hb).rebasing = false := hreb
  have hcherry : cherry_pick (tipTree h0) (Commit.mk s0.worktree tempMsg)
      (postSnapState branch s0 h0 hb) = Except.error
      ⟨"The previous cherry-pick is now empty, possibly due to conflict resolution."⟩ := by
    simp only [cherry_pick, hrebP, Bool.false_eq_true, if_false, hht]
    rw [hdiff]
    simp [hemp]
  have hmark : containsSubstr
      "The previous cherry-pick is now empty, possibly due to conflict resolution."
      emptyMark = true := by
    decide
  have hc3 : lookupBranch (postSnapState branch s0 h0 hb).branches s0.head =
      some (Commit.mk s0.worktree tempMsg :: h0) := by
    show lookupBranch (setBranch s0.branches s0.head
      (Commit.mk s0.worktree tempMsg :: h0)) s0.head = _
    exact lookup_setBranch_same _ _ _
  have hgetd : (lookupBranch (postSnapState branch s0 h0 hb).branches
      branch).getD [] = hb := by
    rw [show lookupBranch (postSnapState branch s0 h0 hb).branches branch =
      some hb from hlk3]
    rfl
  simp only [commit_and_push, hd, if_true]
  rw [hbase, htc1, hco]
  dsimp only
  rw [hpull]
  dsimp only
  rw [hcherry]
  dsimp only
  rw [if_pos hmark]
  obtain ⟨pk, o1, o2, o3, o4, o5, o6, o7, o8, o9⟩ :=
    finish_spec branch s0.head now pats (postSnapState branch s0 h0 hb)
      (Commit.mk s0.worktree tempMsg) h0 rfl hhead hc3 h0ne
      (fun kv hkv => Tree.find_isSome_of_mem _ kv hkv)
      hpat
  have hpk : pk = true := by
    apply o7.mpr
    intro rh1 hrh1
    have h2 : (some rh : Option (List Commit)) = some rh1 := by
      rw [← hrem]
      exact hrh1
    cases h2
    rw [hgetd]
    exact hsfx.trans (List.suffix_cons _ _)
  rw [hpk] at o1
  rw [hgetd] at o6
  exact ⟨o1, ⟨(applyExclusions pats (postSnapState branch s0 h0 hb)).1.index,
    o6⟩, o2, o3, o4⟩

/-- C6 witness: the empty-diff skip at the concrete scenario where the
auto-save branch already contains the developer's edit. -/
theorem c6_empty_diff_skip_witness :
    (commit_and_push "autosave" [] "NOW" sEmpty).2 = Outcome.success true ∧
    (∃ t : Tree, lookupBranch (commit_and_push "autosave" [] "NOW"
      sEmpty).1.branches "autosave" =
      some (Commit.mk t ("Auto-commit on " ++ "NOW" ++ ".") :: [cSame, c0])) ∧
    (commit_and_push "autosave" [] "NOW" sEmpty).1.head = sEmpty.head ∧
    lookupBranch (commit_and_push "autosave" [] "NOW" sEmpty).1.branches
      sEmpty.head = some [c0] ∧
    (commit_and_push "autosave" [] "NOW" sEmpty).1.worktree =
      sEmpty.worktree :=
  c6_empty_diff_skip "autosave" "NOW" [] sEmpty [c0] [cSame, c0] [cSame, c0]
    [("README.md", "r1")] (by decide) (by decide) (by decide) (by decide)
    (by decide) (by decide) (by decide) (by decide)
    (fun pat hp => absurd hp (List.not_mem_nil pat)) (by decide) (by decide)

end Flatworm
